import Mathlib

/-!
Shallow embedding of the interview-video scoring core
(scorer.py, audio_analyzer.py rating logic, content_analyzer.py rating
logic) over exact rational arithmetic, together with theorems settling
the specification claims.

Python dicts are embedded as association lists (`List (String × ℚ)`) with
first-match lookup; `dict.get(k, 0)` becomes `fsGet`; Python float
literals become the corresponding rationals; Python `round` (banker's
rounding, round-half-to-even) becomes `pyRound`.
-/

/-- A per-modality feature dictionary: metric name to numeric value. -/
abbrev FeatureSet := List (String × ℚ)

/-- Embeds Python `fs.get(k, 0)`: value of key `k`, defaulting to 0. -/
def fsGet (fs : FeatureSet) (k : String) : ℚ :=
  (fs.lookup k).getD 0

/-- The cross-modality weight record held by a `Scorer`. -/
structure Weights where
  visual : ℚ
  audio : ℚ
  content : ℚ
deriving DecidableEq

/-- The default component weights of `Scorer.__init__`
(visual 0.3, audio 0.3, content 0.4). -/
def defaultWeights : Weights := ⟨3/10, 3/10, 2/5⟩

/-- Embeds `Scorer.__init__`: `self.weights = weights or {defaults}`.
Passing `none` (Python `None`) selects the defaults; any explicit weight
record is stored unchanged — the constructor performs no validation. -/
def scorerInit (w : Option Weights) : Weights :=
  w.getD defaultWeights

/-- The `feature_weights` dict literal of `Scorer.__init__`.  The source
literal names the key `'clarity'` twice, both times with value `0.3`;
Python keeps a single entry, embedded here as the single `"clarity"`
binding. -/
def feature_weights : FeatureSet :=
  [("eye_contact", 2/5), ("posture", 3/10), ("expression_variation", 3/10),
   ("speaking_rate", 1/4), ("pitch_variation", 1/4), ("volume_variation", 1/5),
   ("clarity", 3/10),
   ("keyword_relevance", 2/5), ("confidence", 3/10)]

/-- Lookup in the fixed per-feature weight table. -/
def fw (k : String) : ℚ := fsGet feature_weights k

/-- Visual component score of `Scorer.process` (lines 50-60): 0 when the
visual feature dict is empty (Python truthiness of `{}`), otherwise the
weighted sum of the three visual metrics scaled by 100. -/
def visual_score (vf : FeatureSet) : ℚ :=
  if vf = [] then 0
  else
    fsGet vf "eye_contact" * 100 * fw "eye_contact"
    + fsGet vf "posture" * 100 * fw "posture"
    + fsGet vf "expression_variation" * 100 * fw "expression_variation"

/-- Audio component score of `Scorer.process` (lines 63-75). -/
def audio_score (af : FeatureSet) : ℚ :=
  if af = [] then 0
  else
    fsGet af "speaking_rate" * 100 * fw "speaking_rate"
    + fsGet af "pitch_variation" * 100 * fw "pitch_variation"
    + fsGet af "volume_variation" * 100 * fw "volume_variation"
    + fsGet af "clarity" * 100 * fw "clarity"

/-- Content component score of `Scorer.process` (lines 78-88). -/
def content_score (cf : FeatureSet) : ℚ :=
  if cf = [] then 0
  else
    fsGet cf "keyword_relevance" * 100 * fw "keyword_relevance"
    + fsGet cf "confidence" * 100 * fw "confidence"
    + fsGet cf "clarity" * 100 * fw "clarity"

/-- Overall score of `Scorer.process` (lines 91-95). -/
def overall_score (w : Weights) (vf af cf : FeatureSet) : ℚ :=
  visual_score vf * w.visual + audio_score af * w.audio
    + content_score cf * w.content

/-- The `feature_scores` dict of `Scorer.process` (lines 98-114), an
ordered table of display-renamed feature values (metric × 100); each
modality block is present exactly when its feature dict is non-empty. -/
def feature_scores (vf af cf : FeatureSet) : FeatureSet :=
  (if vf = [] then []
   else
     [("eye_contact", fsGet vf "eye_contact" * 100),
      ("posture", fsGet vf "posture" * 100),
      ("expression", fsGet vf "expression_variation" * 100)])
  ++ (if af = [] then []
      else
        [("speaking_rate", fsGet af "speaking_rate" * 100),
         ("tone_variation", fsGet af "pitch_variation" * 100),
         ("volume_control", fsGet af "volume_variation" * 100),
         ("voice_clarity", fsGet af "clarity" * 100)])
  ++ (if cf = [] then []
      else
        [("job_relevance", fsGet cf "keyword_relevance" * 100),
         ("confidence", fsGet cf "confidence" * 100),
         ("speech_clarity", fsGet cf "clarity" * 100)])

/-- Stable descending insertion: an element is placed before the first
existing element of strictly smaller or equal-later value, so elements of
equal value keep their original relative order — the behaviour of
Python `sorted(..., key=value, reverse=True)`. -/
def insertDesc (x : String × ℚ) : FeatureSet → FeatureSet
  | [] => [x]
  | y :: ys => if y.2 ≤ x.2 then x :: y :: ys else y :: insertDesc x ys

/-- Stable sort of the feature table, descending by value. -/
def sortDesc : FeatureSet → FeatureSet
  | [] => []
  | x :: xs => insertDesc x (sortDesc xs)

/-- The `strengths` list of `Scorer.process` (lines 121-127): names of
top-3 sorted features whose value is at least 70 (empty when the feature
table itself is empty, mirroring the `if feature_scores:` guard). -/
def strengths_of (fs : FeatureSet) : List String :=
  if fs = [] then []
  else (((sortDesc fs).take 3).filter (fun p => 70 ≤ p.2)).map Prod.fst

/-- The `improvements` list of `Scorer.process` (lines 121-132): names of
the bottom-3 entries (`sorted_features[-3:]`) whose value is below 60. -/
def improvements_of (fs : FeatureSet) : List String :=
  if fs = [] then []
  else
    (((sortDesc fs).drop ((sortDesc fs).length - 3)).filter
        (fun p => p.2 < 60)).map Prod.fst

/-- The component-score sub-record of the result dict. -/
structure ComponentScores where
  visual : ℚ
  audio : ℚ
  content : ℚ
deriving DecidableEq

/-- The result record returned by `Scorer.process` (lines 134-144). -/
structure ScoreResult where
  overall_score : ℚ
  component_scores : ComponentScores
  feature_scores : FeatureSet
  strengths : List String
  improvements : List String
deriving DecidableEq

/-- Embeds `Scorer.process`.  The Python method reads the three feature
dicts out of `input_data` with `.get(key, {})`; a missing modality key
behaves exactly like the empty dict, so the input is taken here as the
three feature dicts directly. -/
def process (w : Weights) (vf af cf : FeatureSet) : ScoreResult :=
  ⟨overall_score w vf af cf,
   ⟨visual_score vf, audio_score af, content_score cf⟩,
   feature_scores vf af cf,
   strengths_of (feature_scores vf af cf),
   improvements_of (feature_scores vf af cf)⟩

/-- Python `round` on rationals: round half to even (banker's rounding),
the semantics of the built-in `round` used by the rating generators. -/
def pyRound (x : ℚ) : ℤ :=
  if x - Int.floor x < 1/2 then Int.floor x
  else if 1/2 < x - Int.floor x then Int.floor x + 1
  else if Int.floor x % 2 = 0 then Int.floor x else Int.floor x + 1

/-- Tempo band of `AudioAnalyzer._generate_ratings` (lines 165-180):
rating together with the band comment string. -/
def tempo_band (tempo : ℚ) : ℤ × String :=
  if tempo < 3/10 then (2, "说话速度偏慢，可能影响听众注意力")
  else if tempo < 9/20 then (3, "说话速度适中，节奏自然")
  else if tempo < 3/5 then (4, "说话速度流畅自然，节奏感好")
  else if tempo < 3/4 then (5, "说话速度活力充沛，节奏感强")
  else (2, "说话速度过快，可能影响清晰度和理解")

/-- The tempo rating alone. -/
def tempo_rating (tempo : ℚ) : ℤ := (tempo_band tempo).1

/-- Pitch-variation rating of `AudioAnalyzer._generate_ratings`
(lines 183-191). -/
def pitch_rating (pv : ℚ) : ℤ :=
  if pv < 1/10 then 1 else if pv < 3/10 then 3 else 5

/-- Volume-variation rating of `AudioAnalyzer._generate_ratings`
(lines 194-202). -/
def volume_rating (vv : ℚ) : ℤ :=
  if vv < 1/10 then 2 else if vv < 3/10 then 3 else 5

/-- Clarity rating of `AudioAnalyzer._generate_ratings`
(lines 205-213). -/
def clarity_rating (c : ℚ) : ℤ :=
  if c < 3/10 then 2 else if c < 3/5 then 3 else 5

/-- Overall audio rating of `AudioAnalyzer._generate_ratings`
(lines 216-219): the equal-weight (0.25 each) average of the four
sub-ratings, rounded, then clamped into [1,5] by
`min(5, max(1, round(overall_score)))`. -/
def audio_overall_rating (tr pr vr cr : ℤ) : ℤ :=
  min 5 (max 1 (pyRound ((tr : ℚ) * (1/4) + (pr : ℚ) * (1/4)
    + (vr : ℚ) * (1/4) + (cr : ℚ) * (1/4))))

/-- Star rating of `ContentAnalyzer._generate_ratings` (lines 341-350):
`max(1, round(metric * 5))`, applied uniformly to keyword relevance,
confidence, clarity and content quality. -/
def star_rating (x : ℚ) : ℤ := max 1 (pyRound (x * 5))

/-- Tempo normalizer of `AudioAnalyzer.process` line 89:
`min(1.0, tempo / 240)`. -/
def normalized_tempo (bpm : ℚ) : ℚ := min 1 (bpm / 240)

/-- Pitch-variation normalizer of `AudioAnalyzer.process` line 90:
`min(1.0, pitch_variation / 100)`. -/
def normalized_pitch_var (std : ℚ) : ℚ := min 1 (std / 100)

/-- Volume-variation normalizer of `AudioAnalyzer.process` line 91:
`min(1.0, volume_variation * 20)`. -/
def normalized_volume_var (std : ℚ) : ℚ := min 1 (std * 20)

/-- MFCC-variance normalizer of `AudioAnalyzer.process` line 92:
`min(1.0, mfcc_var / 20)`. -/
def normalized_mfcc_var (v : ℚ) : ℚ := min 1 (v / 20)

/-- Replace the value stored at position `i` of a feature table, keeping
the key; used to state single-metric monotonicity of the scorer. -/
def updateAt : FeatureSet → Nat → ℚ → FeatureSet
  | [], _, _ => []
  | p :: ps, 0, v => (p.1, v) :: ps
  | p :: ps, Nat.succ i, v => p :: updateAt ps i v

/-! Helper lemmas -/

/-- Closed form of the stored per-feature weights. -/
theorem fw_eye_contact : fw "eye_contact" = 2/5 := by
  simp +decide [fw, fsGet, feature_weights, List.lookup]

/-- Posture weight. -/
theorem fw_posture : fw "posture" = 3/10 := by
  simp +decide [fw, fsGet, feature_weights, List.lookup]

/-- Expression-variation weight. -/
theorem fw_expression_variation : fw "expression_variation" = 3/10 := by
  simp +decide [fw, fsGet, feature_weights, List.lookup]

/-- Speaking-rate weight. -/
theorem fw_speaking_rate : fw "speaking_rate" = 1/4 := by
  simp +decide [fw, fsGet, feature_weights, List.lookup]

/-- Pitch-variation weight. -/
theorem fw_pitch_variation : fw "pitch_variation" = 1/4 := by
  simp +decide [fw, fsGet, feature_weights, List.lookup]

/-- Volume-variation weight. -/
theorem fw_volume_variation : fw "volume_variation" = 1/5 := by
  simp +decide [fw, fsGet, feature_weights, List.lookup]

/-- Clarity weight (shared spelling between the audio and content rows of
the source dict literal; both rows carry 0.3). -/
theorem fw_clarity : fw "clarity" = 3/10 := by
  simp +decide [fw, fsGet, feature_weights, List.lookup]

/-- Keyword-relevance weight. -/
theorem fw_keyword_relevance : fw "keyword_relevance" = 2/5 := by
  simp +decide [fw, fsGet, feature_weights, List.lookup]

/-- Confidence weight. -/
theorem fw_confidence : fw "confidence" = 3/10 := by
  simp +decide [fw, fsGet, feature_weights, List.lookup]

/-- Banker's rounding never overshoots an integer upper bound of its
argument. -/
theorem pyRound_le (x : ℚ) (n : ℤ) (h : x ≤ (n : ℚ)) : pyRound x ≤ n := by
  have hfl : Int.floor x ≤ n := by
    have h2 := Int.floor_mono h
    rwa [Int.floor_intCast] at h2
  have hx : ((Int.floor x : ℤ) : ℚ) ≤ x := Int.floor_le x
  unfold pyRound
  split_ifs with h1 h2 h3
  · exact hfl
  · have hq : ((Int.floor x : ℤ) : ℚ) < (n : ℚ) := by linarith
    have hz : Int.floor x < n := by exact_mod_cast hq
    omega
  · exact hfl
  · have heq : x - Int.floor x = 1/2 := le_antisymm (not_lt.mp h2) (not_lt.mp h1)
    have hq : ((Int.floor x : ℤ) : ℚ) < (n : ℚ) := by linarith
    have hz : Int.floor x < n := by exact_mod_cast hq
    omega

/-! Claim C1 -/

/-- Claim C1 is false as stated: at normalized tempo 0.5 the audio rating
generator does not produce rating 3 with the moderate-pace comment. -/
theorem c1_counterexample :
    tempo_band (1/2) ≠ ((3 : ℤ), "说话速度适中，节奏自然") := by
  norm_num [tempo_band]

/-- Claim C1 (amended): at normalized tempo 0.5 the tempo rating is 4
with the fluent-pace band comment, because 0.5 falls in the
`0.45 ≤ tempo < 0.6` band. -/
theorem c1_theorem :
    tempo_band (1/2) = ((4 : ℤ), "说话速度流畅自然，节奏感好") := by
  norm_num [tempo_band]

/-! Claim C5 -/

/-- Claim C5: the tempo rating is the exact piecewise band function
`<0.3 → 2`, `<0.45 → 3`, `<0.6 → 4`, `<0.75 → 5`, `≥0.75 → 2`, and in
particular normalized tempo 0.8 yields rating 2 (U-shaped tail), not 5. -/
theorem c5_theorem :
    (∀ t : ℚ, t < 3/10 → tempo_rating t = 2) ∧
    (∀ t : ℚ, 3/10 ≤ t → t < 9/20 → tempo_rating t = 3) ∧
    (∀ t : ℚ, 9/20 ≤ t → t < 3/5 → tempo_rating t = 4) ∧
    (∀ t : ℚ, 3/5 ≤ t → t < 3/4 → tempo_rating t = 5) ∧
    (∀ t : ℚ, 3/4 ≤ t → tempo_rating t = 2) ∧
    (tempo_rating (4/5) = 2 ∧ tempo_rating (4/5) ≠ 5) := by
  refine ⟨?_, ?_, ?_, ?_, ?_, by norm_num [tempo_rating, tempo_band]⟩
  · intro t h
    simp [tempo_rating, tempo_band, h]
  · intro t h1 h2
    simp [tempo_rating, tempo_band, h2, not_lt.mpr (by linarith : 3/10 ≤ t)]
  · intro t h1 h2
    simp [tempo_rating, tempo_band, h2, not_lt.mpr (by linarith : 3/10 ≤ t),
      not_lt.mpr (by linarith : 9/20 ≤ t)]
  · intro t h1 h2
    simp [tempo_rating, tempo_band, h2, not_lt.mpr (by linarith : 3/10 ≤ t),
      not_lt.mpr (by linarith : 9/20 ≤ t), not_lt.mpr (by linarith : 3/5 ≤ t)]
  · intro t h
    simp [tempo_rating, tempo_band, not_lt.mpr (by linarith : 3/10 ≤ t),
      not_lt.mpr (by linarith : 9/20 ≤ t), not_lt.mpr (by linarith : 3/5 ≤ t),
      not_lt.mpr (by linarith : 3/4 ≤ t)]

/-- Concrete instances of each band of `c5_theorem`. -/
theorem c5_witness :
    tempo_rating (1/10) = 2 ∧ tempo_rating (2/5) = 3 ∧ tempo_rating (1/2) = 4 ∧
      tempo_rating (7/10) = 5 ∧ tempo_rating 1 = 2 :=
  ⟨c5_theorem.1 (1/10) (by norm_num),
   c5_theorem.2.1 (2/5) (by norm_num) (by norm_num),
   c5_theorem.2.2.1 (1/2) (by norm_num) (by norm_num),
   c5_theorem.2.2.2.1 (7/10) (by norm_num) (by norm_num),
   c5_theorem.2.2.2.2.1 1 (by norm_num)⟩

/-! Claim C4 -/

/-- Claim C4 is false as stated: the normalizers apply only an upper cap
`min(1.0, ·)`, so a negative raw input produces a negative output. -/
theorem c4_counterexample : normalized_tempo (-240) < 0 := by
  norm_num [normalized_tempo]

/-- Claim C4 (amended): every normalizer output is capped above by 1 for
any rational input, and for nonnegative raw inputs — the actual domain,
since tempo, standard deviations and variances are nonnegative — the
output lies in [0,1]. -/
theorem c4_theorem :
    (∀ x : ℚ, normalized_tempo x ≤ 1 ∧ normalized_pitch_var x ≤ 1 ∧
      normalized_volume_var x ≤ 1 ∧ normalized_mfcc_var x ≤ 1) ∧
    (∀ x : ℚ, 0 ≤ x → 0 ≤ normalized_tempo x ∧ 0 ≤ normalized_pitch_var x ∧
      0 ≤ normalized_volume_var x ∧ 0 ≤ normalized_mfcc_var x) := by
  constructor
  · intro x
    exact ⟨min_le_left _ _, min_le_left _ _, min_le_left _ _, min_le_left _ _⟩
  · intro x hx
    refine ⟨le_min (by norm_num) (by positivity), le_min (by norm_num) (by positivity),
      le_min (by norm_num) (by positivity), le_min (by norm_num) (by positivity)⟩

/-- Concrete instance of `c4_theorem` at a typical tempo of 120 BPM. -/
theorem c4_witness : 0 ≤ normalized_tempo 120 ∧ normalized_tempo 120 ≤ 1 :=
  ⟨(c4_theorem.2 120 (by norm_num)).1, (c4_theorem.1 120).1⟩

/-! Claim C6 -/

/-- Claim C6: for each modality, setting every metric of its feature dict
to 1.0 yields a component score of exactly 100, because the per-modality
feature weights each sum to 1. -/
theorem c6_theorem :
    visual_score
        [("eye_contact", 1), ("posture", 1), ("expression_variation", 1)] = 100 ∧
    audio_score
        [("speaking_rate", 1), ("pitch_variation", 1), ("volume_variation", 1),
         ("clarity", 1)] = 100 ∧
    content_score
        [("keyword_relevance", 1), ("confidence", 1), ("clarity", 1)] = 100 ∧
    fw "eye_contact" + fw "posture" + fw "expression_variation" = 1 ∧
    fw "speaking_rate" + fw "pitch_variation" + fw "volume_variation"
      + fw "clarity" = 1 ∧
    fw "keyword_relevance" + fw "confidence" + fw "clarity" = 1 := by
  refine ⟨?_, ?_, ?_, ?_, ?_, ?_⟩ <;>
    · simp +decide [visual_score, audio_score, content_score, fsGet, fw,
        feature_weights, List.lookup]
      try norm_num

/-! Claim C8 -/

/-- Claim C8: on the table {a:90, b:85, c:80, d:50, e:40, f:30} the
selector returns Strengths = [a, b, c] (the top-3 of the descending sort,
all at least 70) and Improvements = [d, e, f] (the bottom-3, all below
60). -/
theorem c8_theorem :
    strengths_of
        [("a", 90), ("b", 85), ("c", 80), ("d", 50), ("e", 40), ("f", 30)]
      = ["a", "b", "c"] ∧
    improvements_of
        [("a", 90), ("b", 85), ("c", 80), ("d", 50), ("e", 40), ("f", 30)]
      = ["d", "e", "f"] := by
  constructor <;> simp +decide [strengths_of, improvements_of, sortDesc, insertDesc]

/-! Claim C3 -/

/-- Claim C3 is false as stated: a weight configuration summing to 3.0 is
accepted unchanged by the constructor, and scoring an all-ones input with
it silently produces the out-of-range overall score 300. -/
theorem c3_counterexample :
    scorerInit (some ⟨1, 1, 1⟩) = (⟨1, 1, 1⟩ : Weights) ∧
    (process (scorerInit (some ⟨1, 1, 1⟩))
        [("eye_contact", 1), ("posture", 1), ("expression_variation", 1)]
        [("speaking_rate", 1), ("pitch_variation", 1), ("volume_variation", 1),
         ("clarity", 1)]
        [("keyword_relevance", 1), ("confidence", 1), ("clarity", 1)]).overall_score
      = 300 := by
  constructor
  · rfl
  · simp +decide [process, overall_score, visual_score, audio_score, content_score,
      fsGet, fw, feature_weights, List.lookup, scorerInit]
    norm_num

/-- Claim C3 (amended): the constructor performs no validation at all —
every explicit weight record is stored unchanged (only `None` is replaced
by the defaults), and weights not summing to 1.0 silently produce
out-of-range scores, e.g. 300 for all-ones weights on an all-ones input. -/
theorem c3_theorem :
    (∀ w : Weights, scorerInit (some w) = w) ∧
    scorerInit none = defaultWeights ∧
    (process (⟨1, 1, 1⟩ : Weights)
        [("eye_contact", 1), ("posture", 1), ("expression_variation", 1)]
        [("speaking_rate", 1), ("pitch_variation", 1), ("volume_variation", 1),
         ("clarity", 1)]
        [("keyword_relevance", 1), ("confidence", 1), ("clarity", 1)]).overall_score
      = 300 := by
  refine ⟨fun w => rfl, rfl, ?_⟩
  simp +decide [process, overall_score, visual_score, audio_score, content_score,
    fsGet, fw, feature_weights, List.lookup]
  norm_num

/-! Claim C2 -/

/-- Claim C2 is false as stated: with all three feature dicts empty the
scorer returns empty strengths and improvements lists, not singleton
generic-fallback lists. -/
theorem c2_counterexample :
    ¬ ((process (scorerInit none) [] [] []).strengths.length = 1 ∧
       (process (scorerInit none) [] [] []).improvements.length = 1) := by
  simp +decide [process, strengths_of, improvements_of, feature_scores]

/-- Claim C2 (amended): with all three feature dicts empty the scorer
returns overall score 0 and empty strengths and improvements lists; more
generally, when no top-3 feature reaches 70 the strengths list is empty,
and when no bottom-3 feature is below 60 the improvements list is empty —
no generic filler string is ever emitted. -/
theorem c2_theorem :
    process (scorerInit none) [] [] [] = ⟨0, ⟨0, 0, 0⟩, [], [], []⟩ ∧
    (∀ vf af cf : FeatureSet,
      (∀ p ∈ (sortDesc (feature_scores vf af cf)).take 3, p.2 < 70) →
      (process (scorerInit none) vf af cf).strengths = []) ∧
    (∀ vf af cf : FeatureSet,
      (∀ p ∈ (sortDesc (feature_scores vf af cf)).drop
          ((sortDesc (feature_scores vf af cf)).length - 3), 60 ≤ p.2) →
      (process (scorerInit none) vf af cf).improvements = []) := by
  refine ⟨?_, ?_, ?_⟩
  · simp +decide [process, overall_score, visual_score, audio_score, content_score,
      feature_scores, strengths_of, improvements_of, scorerInit, defaultWeights]
  · intro vf af cf h
    show strengths_of (feature_scores vf af cf) = []
    unfold strengths_of
    split_ifs with hfs
    · rfl
    · rw [List.map_eq_nil_iff, List.filter_eq_nil_iff]
      intro p hp
      simpa using not_le.mpr (h p hp)
  · intro vf af cf h
    show improvements_of (feature_scores vf af cf) = []
    unfold improvements_of
    split_ifs with hfs
    · rfl
    · rw [List.map_eq_nil_iff, List.filter_eq_nil_iff]
      intro p hp
      simpa using not_lt.mpr (h p hp)

/-- Concrete instances of `c2_theorem`: an all-zero visual dict qualifies
no strength, an all-ones visual dict qualifies no improvement, and in
both cases the corresponding list is empty rather than a filler. -/
theorem c2_witness :
    (process (scorerInit none) [("eye_contact", 0)] [] []).strengths = [] ∧
    (process (scorerInit none)
        [("eye_contact", 1), ("posture", 1), ("expression_variation", 1)] [] []).improvements
      = [] :=
  ⟨c2_theorem.2.1 [("eye_contact", 0)] [] []
      (by simp +decide [feature_scores, fsGet, List.lookup, sortDesc, insertDesc]),
   c2_theorem.2.2 [("eye_contact", 1), ("posture", 1), ("expression_variation", 1)] [] []
      (by simp +decide [feature_scores, fsGet, List.lookup, sortDesc, insertDesc])⟩

/-! Claim C7 -/

/-- Claim C7: every rating produced by the rating generators is an
integer in [1,5].  The four audio sub-ratings and the clamped audio
overall rating satisfy this for every input; the content star ratings
(`max(1, round(metric * 5))`) are at least 1 for every input and at most
5 whenever the underlying metric is at most 1, which holds at every call
site since keyword relevance, confidence, clarity and content quality
all lie in [0,1]. -/
theorem c7_theorem :
    (∀ t : ℚ, 1 ≤ tempo_rating t ∧ tempo_rating t ≤ 5) ∧
    (∀ x : ℚ, 1 ≤ pitch_rating x ∧ pitch_rating x ≤ 5) ∧
    (∀ x : ℚ, 1 ≤ volume_rating x ∧ volume_rating x ≤ 5) ∧
    (∀ x : ℚ, 1 ≤ clarity_rating x ∧ clarity_rating x ≤ 5) ∧
    (∀ tr pr vr cr : ℤ, 1 ≤ audio_overall_rating tr pr vr cr ∧
      audio_overall_rating tr pr vr cr ≤ 5) ∧
    (∀ x : ℚ, 1 ≤ star_rating x) ∧
    (∀ x : ℚ, x ≤ 1 → star_rating x ≤ 5) := by
  refine ⟨?_, ?_, ?_, ?_, ?_, ?_, ?_⟩
  · intro t
    unfold tempo_rating tempo_band
    split_ifs <;> norm_num
  · intro x
    unfold pitch_rating
    split_ifs <;> norm_num
  · intro x
    unfold volume_rating
    split_ifs <;> norm_num
  · intro x
    unfold clarity_rating
    split_ifs <;> norm_num
  · intro tr pr vr cr
    unfold audio_overall_rating
    exact ⟨le_min (by norm_num) (le_max_left _ _), min_le_left _ _⟩
  · intro x
    exact le_max_left _ _
  · intro x hx
    unfold star_rating
    refine max_le (by norm_num) (pyRound_le _ 5 ?_)
    push_cast
    linarith

/-- Concrete instance of `c7_theorem` for the star rating at metric
value 1/2. -/
theorem c7_witness : 1 ≤ star_rating (1/2) ∧ star_rating (1/2) ≤ 5 :=
  ⟨c7_theorem.2.2.2.2.2.1 (1/2), c7_theorem.2.2.2.2.2.2 (1/2) (by norm_num)⟩

/-! Claim C9 helpers -/

/-- Prepending an expected key with value 0 to a dict that does not yet
contain it leaves every lookup-with-default unchanged. -/
theorem fsGet_cons_zero {fs : FeatureSet} {k : String}
    (h : fs.lookup k = none) : ∀ k', fsGet ((k, 0) :: fs) k' = fsGet fs k' := by
  intro k'
  unfold fsGet
  by_cases hk : k' = k
  · subst hk
    simp [List.lookup, h]
  · have hb : (k' == k) = false := beq_eq_false_iff_ne.mpr hk
    simp [List.lookup, hb]

/-- `process` only inspects its visual dict through emptiness and
`fsGet`, so two non-empty visual dicts with identical lookups give
identical results. -/
theorem process_congr_visual (w : Weights) {vf vf' : FeatureSet}
    (af cf : FeatureSet) (h1 : vf ≠ []) (h2 : vf' ≠ [])
    (hg : ∀ k, fsGet vf k = fsGet vf' k) :
    process w vf af cf = process w vf' af cf := by
  simp only [process, overall_score, visual_score, feature_scores,
    if_neg h1, if_neg h2, hg]

/-- Audio analogue of `process_congr_visual`. -/
theorem process_congr_audio (w : Weights) (vf : FeatureSet)
    {af af' : FeatureSet} (cf : FeatureSet) (h1 : af ≠ []) (h2 : af' ≠ [])
    (hg : ∀ k, fsGet af k = fsGet af' k) :
    process w vf af cf = process w vf af' cf := by
  simp only [process, overall_score, audio_score, feature_scores,
    if_neg h1, if_neg h2, hg]

/-- Content analogue of `process_congr_visual`. -/
theorem process_congr_content (w : Weights) (vf af : FeatureSet)
    {cf cf' : FeatureSet} (h1 : cf ≠ []) (h2 : cf' ≠ [])
    (hg : ∀ k, fsGet cf k = fsGet cf' k) :
    process w vf af cf = process w vf af cf' := by
  simp only [process, overall_score, content_score, feature_scores,
    if_neg h1, if_neg h2, hg]

/-- The strengths list never exceeds three entries. -/
theorem strengths_of_length_le (fs : FeatureSet) : (strengths_of fs).length ≤ 3 := by
  unfold strengths_of
  split_ifs
  · simp
  · rw [List.length_map]
    refine le_trans (List.length_filter_le _ _) ?_
    rw [List.length_take]
    exact min_le_left _ _

/-- The improvements list never exceeds three entries. -/
theorem improvements_of_length_le (fs : FeatureSet) :
    (improvements_of fs).length ≤ 3 := by
  unfold improvements_of
  split_ifs
  · simp
  · rw [List.length_map]
    refine le_trans (List.length_filter_le _ _) ?_
    rw [List.length_drop]
    omega

/-! Claim C9 -/

/-- Claim C9: the scoring core is total — `process` is a plain function
into `ScoreResult`, its overall score is always the weighted combination
of its own three component scores, its strengths and improvements lists
are always well-formed (at most three entries), a missing expected key
reads as 0, and inserting an explicitly-zero binding for an absent key
into a non-empty dict leaves the entire result unchanged. -/
theorem c9_theorem :
    (∀ vf af cf : FeatureSet,
      (process (scorerInit none) vf af cf).overall_score
        = (process (scorerInit none) vf af cf).component_scores.visual * (3/10)
          + (process (scorerInit none) vf af cf).component_scores.audio * (3/10)
          + (process (scorerInit none) vf af cf).component_scores.content * (2/5)) ∧
    (∀ vf af cf : FeatureSet,
      (process (scorerInit none) vf af cf).strengths.length ≤ 3 ∧
      (process (scorerInit none) vf af cf).improvements.length ≤ 3) ∧
    (∀ (fs : FeatureSet) (k : String), fs.lookup k = none → fsGet fs k = 0) ∧
    (∀ (vf af cf : FeatureSet) (k : String), vf.lookup k = none → vf ≠ [] →
      process (scorerInit none) ((k, 0) :: vf) af cf
        = process (scorerInit none) vf af cf) ∧
    (∀ (vf af cf : FeatureSet) (k : String), af.lookup k = none → af ≠ [] →
      process (scorerInit none) vf ((k, 0) :: af) cf
        = process (scorerInit none) vf af cf) ∧
    (∀ (vf af cf : FeatureSet) (k : String), cf.lookup k = none → cf ≠ [] →
      process (scorerInit none) vf af ((k, 0) :: cf)
        = process (scorerInit none) vf af cf) := by
  refine ⟨fun vf af cf => rfl, ?_, ?_, ?_, ?_, ?_⟩
  · intro vf af cf
    exact ⟨strengths_of_length_le _, improvements_of_length_le _⟩
  · intro fs k h
    unfold fsGet
    rw [h]
    rfl
  · intro vf af cf k hk hne
    exact process_congr_visual _ af cf (List.cons_ne_nil _ _) hne (fsGet_cons_zero hk)
  · intro vf af cf k hk hne
    exact process_congr_audio _ vf cf (List.cons_ne_nil _ _) hne (fsGet_cons_zero hk)
  · intro vf af cf k hk hne
    exact process_congr_content _ vf af (List.cons_ne_nil _ _) hne (fsGet_cons_zero hk)

/-- Concrete instances of `c9_theorem`: the missing key `eye_contact`
reads as 0, and making it explicitly 0 does not change the result. -/
theorem c9_witness :
    fsGet [("posture", 1)] "eye_contact" = 0 ∧
    process (scorerInit none) [("eye_contact", 0), ("posture", 1)] [] []
      = process (scorerInit none) [("posture", 1)] [] [] :=
  ⟨c9_theorem.2.2.1 [("posture", 1)] "eye_contact" (by simp +decide [List.lookup]),
   c9_theorem.2.2.2.1 [("posture", 1)] [] [] "eye_contact"
     (by simp +decide [List.lookup]) (by simp)⟩

/-! Claim C10 helpers -/

/-- Raising the value stored at one position of a feature table weakly
raises every lookup-with-default. -/
theorem fsGet_updateAt_le :
    ∀ (fs : FeatureSet) (i : Nat) (hi : i < fs.length) (v' : ℚ),
      (fs.get ⟨i, hi⟩).2 ≤ v' → ∀ k, fsGet fs k ≤ fsGet (updateAt fs i v') k := by
  intro fs
  induction fs with
  | nil => intro i hi; simp at hi
  | cons a ps ih =>
    obtain ⟨a1, a2⟩ := a
    intro i hi v' hle k
    cases i with
    | zero =>
      simp only [List.get] at hle
      unfold updateAt fsGet
      by_cases hk : k = a1
      · subst hk
        simpa [List.lookup] using hle
      · have hb : (k == a1) = false := beq_eq_false_iff_ne.mpr hk
        simp [List.lookup, hb]
    | succ j =>
      simp only [List.get] at hle
      have hj : j < ps.length := by simpa using hi
      unfold updateAt fsGet
      by_cases hk : k = a1
      · subst hk
        simp [List.lookup]
      · have hb : (k == a1) = false := beq_eq_false_iff_ne.mpr hk
        simpa [List.lookup, hb] using ih j hj v' hle k

/-- `updateAt` preserves (non-)emptiness of the table. -/
theorem updateAt_eq_nil_iff (fs : FeatureSet) (i : Nat) (v : ℚ) :
    updateAt fs i v = [] ↔ fs = [] := by
  cases fs with
  | nil => simp [updateAt]
  | cons a ps => cases i <;> simp [updateAt]

/-- The visual component score is monotone under pointwise-larger
lookups (for dicts of equal emptiness). -/
theorem visual_score_mono {vf vf' : FeatureSet} (he : vf = [] ↔ vf' = [])
    (hg : ∀ k, fsGet vf k ≤ fsGet vf' k) : visual_score vf ≤ visual_score vf' := by
  unfold visual_score
  by_cases h : vf = []
  · rw [if_pos h, if_pos (he.mp h)]
  · rw [if_neg h, if_neg (fun hh => h (he.mpr hh)), fw_eye_contact, fw_posture,
      fw_expression_variation]
    have g1 := hg "eye_contact"
    have g2 := hg "posture"
    have g3 := hg "expression_variation"
    linarith

/-- Audio analogue of `visual_score_mono`. -/
theorem audio_score_mono {af af' : FeatureSet} (he : af = [] ↔ af' = [])
    (hg : ∀ k, fsGet af k ≤ fsGet af' k) : audio_score af ≤ audio_score af' := by
  unfold audio_score
  by_cases h : af = []
  · rw [if_pos h, if_pos (he.mp h)]
  · rw [if_neg h, if_neg (fun hh => h (he.mpr hh)), fw_speaking_rate,
      fw_pitch_variation, fw_volume_variation, fw_clarity]
    have g1 := hg "speaking_rate"
    have g2 := hg "pitch_variation"
    have g3 := hg "volume_variation"
    have g4 := hg "clarity"
    linarith

/-- Content analogue of `visual_score_mono`. -/
theorem content_score_mono {cf cf' : FeatureSet} (he : cf = [] ↔ cf' = [])
    (hg : ∀ k, fsGet cf k ≤ fsGet cf' k) : content_score cf ≤ content_score cf' := by
  unfold content_score
  by_cases h : cf = []
  · rw [if_pos h, if_pos (he.mp h)]
  · rw [if_neg h, if_neg (fun hh => h (he.mpr hh)), fw_keyword_relevance,
      fw_confidence, fw_clarity]
    have g1 := hg "keyword_relevance"
    have g2 := hg "confidence"
    have g3 := hg "clarity"
    linarith

/-! Claim C10 -/

/-- Claim C10: with the default weight configuration, `process` is
monotone non-decreasing in every input metric: raising the value stored
at any one position of one modality's dict (all metric values
nonnegative) weakly raises that modality's component score and the
overall score. -/
theorem c10_theorem :
    (∀ (vf af cf : FeatureSet) (i : Nat) (hi : i < vf.length) (v' : ℚ),
      (vf.get ⟨i, hi⟩).2 ≤ v' → (∀ p ∈ vf, 0 ≤ p.2) →
      (process (scorerInit none) vf af cf).component_scores.visual
          ≤ (process (scorerInit none) (updateAt vf i v') af cf).component_scores.visual ∧
        (process (scorerInit none) vf af cf).overall_score
          ≤ (process (scorerInit none) (updateAt vf i v') af cf).overall_score) ∧
    (∀ (vf af cf : FeatureSet) (i : Nat) (hi : i < af.length) (v' : ℚ),
      (af.get ⟨i, hi⟩).2 ≤ v' → (∀ p ∈ af, 0 ≤ p.2) →
      (process (scorerInit none) vf af cf).component_scores.audio
          ≤ (process (scorerInit none) vf (updateAt af i v') cf).component_scores.audio ∧
        (process (scorerInit none) vf af cf).overall_score
          ≤ (process (scorerInit none) vf (updateAt af i v') cf).overall_score) ∧
    (∀ (vf af cf : FeatureSet) (i : Nat) (hi : i < cf.length) (v' : ℚ),
      (cf.get ⟨i, hi⟩).2 ≤ v' → (∀ p ∈ cf, 0 ≤ p.2) →
      (process (scorerInit none) vf af cf).component_scores.content
          ≤ (process (scorerInit none) vf af (updateAt cf i v')).component_scores.content ∧
        (process (scorerInit none) vf af cf).overall_score
          ≤ (process (scorerInit none) vf af (updateAt cf i v')).overall_score) := by
  refine ⟨?_, ?_, ?_⟩
  · intro vf af cf i hi v' hle _hnn
    have hg := fsGet_updateAt_le vf i hi v' hle
    have he : vf = [] ↔ updateAt vf i v' = [] := (updateAt_eq_nil_iff vf i v').symm
    have hv := visual_score_mono he hg
    refine ⟨hv, ?_⟩
    show visual_score vf * (3/10) + audio_score af * (3/10) + content_score cf * (2/5)
      ≤ visual_score (updateAt vf i v') * (3/10) + audio_score af * (3/10)
        + content_score cf * (2/5)
    linarith
  · intro vf af cf i hi v' hle _hnn
    have hg := fsGet_updateAt_le af i hi v' hle
    have he : af = [] ↔ updateAt af i v' = [] := (updateAt_eq_nil_iff af i v').symm
    have ha := audio_score_mono he hg
    refine ⟨ha, ?_⟩
    show visual_score vf * (3/10) + audio_score af * (3/10) + content_score cf * (2/5)
      ≤ visual_score vf * (3/10) + audio_score (updateAt af i v') * (3/10)
        + content_score cf * (2/5)
    linarith
  · intro vf af cf i hi v' hle _hnn
    have hg := fsGet_updateAt_le cf i hi v' hle
    have he : cf = [] ↔ updateAt cf i v' = [] := (updateAt_eq_nil_iff cf i v').symm
    have hc := content_score_mono he hg
    refine ⟨hc, ?_⟩
    show visual_score vf * (3/10) + audio_score af * (3/10) + content_score cf * (2/5)
      ≤ visual_score vf * (3/10) + audio_score af * (3/10)
        + content_score (updateAt cf i v') * (2/5)
    linarith

/-- Concrete instance of `c10_theorem`: raising `eye_contact` from 1/2
to 1 weakly raises the visual component and the overall score. -/
theorem c10_witness :
    (process (scorerInit none) [("eye_contact", 1/2)] [] []).component_scores.visual
        ≤ (process (scorerInit none) (updateAt [("eye_contact", 1/2)] 0 1)
            [] []).component_scores.visual ∧
      (process (scorerInit none) [("eye_contact", 1/2)] [] []).overall_score
        ≤ (process (scorerInit none) (updateAt [("eye_contact", 1/2)] 0 1)
            [] []).overall_score :=
  c10_theorem.1 [("eye_contact", 1/2)] [] [] 0 (by norm_num) 1
    (by norm_num [List.get])
    (by intro p hp; simp only [List.mem_singleton] at hp; subst hp; norm_num)
